import Mathlib

/-!
Verification of the Acgnx RSS torrent-provider adapter.

A shallow embedding of `src/Acgnx.ts` (the pattern-scanning implementation of
the `Provider` class).  Strings are modelled as `List Char`; JavaScript regular
expressions are modelled by explicit leftmost-match scanning functions; the
JavaScript number produced by `parseFloat` on a digits-and-dots string is
modelled exactly as a decimal fixed-point value (mantissa and scale), so the
float product `value * 1024 * ...` and `Math.round` become exact natural-number
arithmetic; a rational-number formulation is proved equivalent.  Fallible steps
(a fragment whose processing throws) are modelled with `Option`.  External
capabilities — the HTTP fetch, `new Date(...).toISOString()` and the
`$habari.parse` title parser — are parameters of the model.
-/

set_option maxRecDepth 100000

namespace Acgnx

/-- JavaScript `\d` / `[0-9]`, by code point. -/
def isDigitC (c : Char) : Bool :=
  decide (48 ≤ c.toNat ∧ c.toNat ≤ 57)

/-- The character class `[a-fA-F0-9]` used by the info-hash regexes. -/
def hexDigit (c : Char) : Bool :=
  decide ((48 ≤ c.toNat ∧ c.toNat ≤ 57) ∨ (97 ≤ c.toNat ∧ c.toNat ≤ 102) ∨
    (65 ≤ c.toNat ∧ c.toNat ≤ 70))

/-- Lower-case hexadecimal alphabet `[0-9a-f]`. -/
def lowerHexDigit (c : Char) : Bool :=
  decide ((48 ≤ c.toNat ∧ c.toNat ≤ 57) ∨ (97 ≤ c.toNat ∧ c.toNat ≤ 102))

/-- JavaScript whitespace (`\s`, also what `String.prototype.trim` strips). -/
def isJsWhitespace (c : Char) : Bool :=
  decide (c.toNat = 32 ∨ c.toNat = 9 ∨ c.toNat = 10 ∨ c.toNat = 11 ∨
    c.toNat = 12 ∨ c.toNat = 13 ∨ c.toNat = 160 ∨ c.toNat = 5760 ∨
    (8192 ≤ c.toNat ∧ c.toNat ≤ 8202) ∨ c.toNat = 8232 ∨ c.toNat = 8233 ∨
    c.toNat = 8239 ∨ c.toNat = 8287 ∨ c.toNat = 12288 ∨ c.toNat = 65279)

/-- JavaScript line terminators (what `.` does NOT match without the `s` flag). -/
def isLineTerminator (c : Char) : Bool :=
  decide (c.toNat = 10 ∨ c.toNat = 13 ∨ c.toNat = 8232 ∨ c.toNat = 8233)

/-- ASCII lower-casing of a character, as `String.prototype.toLowerCase`
acts on the characters relevant here. -/
def jsToLower (c : Char) : Char :=
  if 65 ≤ c.toNat ∧ c.toNat ≤ 90 then Char.ofNat (c.toNat + 32) else c

/-- Model of `String.prototype.trim`. -/
def jsTrim (s : List Char) : List Char :=
  ((s.dropWhile isJsWhitespace).reverse.dropWhile isJsWhitespace).reverse

/-- Does `pat` occur as a contiguous substring of `s`?
Models `String.prototype.includes`. -/
def containsSub (pat : List Char) : List Char → Bool
  | [] => pat.isEmpty
  | c :: rest => pat.isPrefixOf (c :: rest) || containsSub pat rest

/-- The value of a list of decimal digit characters. -/
def digitsToNat (ds : List Char) : Nat :=
  ds.foldl (fun n c => 10 * n + (c.toNat - 48)) 0

/-- An exact decimal value `mant / 10 ^ scale`, the result of parsing a
decimal literal. -/
structure DecValue where
  mant : Nat
  scale : Nat
deriving DecidableEq

/-- The rational value of a `DecValue`. -/
def DecValue.toQ (v : DecValue) : ℚ :=
  (v.mant : ℚ) / 10 ^ v.scale

/-- JavaScript `parseFloat` on a string containing only digits and dots
(the shape produced by the strip of all non-digit, non-dot characters): the longest
numeric-literal head of the string, `none` for `NaN`.  The value is modelled
exactly (IEEE-754 double rounding is not modelled). -/
def parseDecimal (s : List Char) : Option DecValue :=
  let ip := s.takeWhile isDigitC
  let rest := s.drop ip.length
  match rest with
  | '.' :: t =>
    let fp := t.takeWhile isDigitC
    if ip.isEmpty && fp.isEmpty then none
    else some ⟨digitsToNat ip * 10 ^ fp.length + digitsToNat fp, fp.length⟩
  | _ => if ip.isEmpty then none else some ⟨digitsToNat ip, 0⟩

/-- Model of `Math.round` on a non-negative rational, as the spec words it:
round the product to the nearest integer (halves round up). -/
def jsRound (q : ℚ) : ℤ :=
  ⌊q + 1 / 2⌋

/-- Computation of `Math.round` on `n / d` for non-negative fixed-point values, as exact
natural-number arithmetic: `⌊n / d + 1 / 2⌋ = (2 * n + d) / (2 * d)`. -/
def roundedDiv (n d : Nat) : Nat :=
  (2 * n + d) / (2 * d)

/-- The characters kept by the strip of all non-digit, non-dot characters. -/
def sizeCharKeep (c : Char) : Bool :=
  isDigitC c || c = '.'

/-- Model of `Provider.parseSizeToBytes`: convert a size string such as `"1.5GB"` into
a byte count.  Translated from the source: empty string and `NaN` give `0`;
the unit is chosen by substring tests `gb`, `mb`, `kb` (in that order, there
is no `tb` branch) on the lower-cased string; the float product and
`Math.round` are computed exactly via `roundedDiv`. -/
def parseSizeToBytes (sizeStr : List Char) : ℤ :=
  if sizeStr.isEmpty then 0
  else
    let sizeLower := sizeStr.map jsToLower
    match parseDecimal (sizeStr.filter sizeCharKeep) with
    | none => 0
    | some v =>
      let mult : Nat :=
        if containsSub (("gb").data) sizeLower then 1024 * 1024 * 1024
        else if containsSub (("mb").data) sizeLower then 1024 * 1024
        else if containsSub (("kb").data) sizeLower then 1024
        else 1
      (roundedDiv (v.mant * mult) (10 ^ v.scale) : ℤ)

/-- Spec-side formulation: the numeric value of the formatted-size string —
the leading numeric portion after stripping all non-digit, non-dot
characters, zero when unparseable. -/
def numericValueQ (sizeStr : List Char) : ℚ :=
  match parseDecimal (sizeStr.filter sizeCharKeep) with
  | none => 0
  | some v => v.toQ

/-- Spec-side formulation: the binary byte multiplier of the unit found in
the size string (`kb`, `mb`, `gb` substring tests on the lower-cased string;
anything else — including `tb` — is unscaled). -/
def unitMultiplierQ (sizeStr : List Char) : ℚ :=
  let sizeLower := sizeStr.map jsToLower
  if containsSub (("gb").data) sizeLower then 1024 * 1024 * 1024
  else if containsSub (("mb").data) sizeLower then 1024 * 1024
  else if containsSub (("kb").data) sizeLower then 1024
  else 1

/-! ## Regular-expression matching, modelled by explicit leftmost scanning -/

/-- The shortest head of `s` that is followed by the literal `closeT`;
this is the capture of a non-greedy `(.*?)` followed by `closeT`, anchored
at the start of `s`.  Without `dotall`, the capture may not contain a line
terminator (the `.` of a regex without the `s` flag). -/
def captureUpTo (closeT : List Char) (dotall : Bool) : List Char → Option (List Char)
  | [] => if closeT.isEmpty then some [] else none
  | c :: rest =>
    if closeT.isPrefixOf (c :: rest) then some []
    else if !dotall && isLineTerminator c then none
    else (captureUpTo closeT dotall rest).map (c :: ·)

/-- Leftmost match of the pattern `openT(.*?)closeT` in `s`, returning the
capture: the first start position at which the literal `openT` matches and a
`closeT` completion exists, with the shortest capture at that position. -/
def matchBetween (openT closeT : List Char) (dotall : Bool) : List Char → Option (List Char)
  | [] =>
    if openT.isEmpty then captureUpTo closeT dotall [] else none
  | c :: rest =>
    match (if openT.isPrefixOf (c :: rest) then
            captureUpTo closeT dotall ((c :: rest).drop openT.length)
          else none) with
    | some cap => some cap
    | none => matchBetween openT closeT dotall rest

/-- The CDATA regex of `getTagContent`: the dynamically built dot-all
pattern `<tagName><![CDATA[(.*?)]]></tagName>`. -/
def cdataMatch (xml tagName : List Char) : Option (List Char) :=
  matchBetween (("<").data ++ tagName ++ (("><![CDATA[").data))
    (("]]></").data ++ tagName ++ ((">").data)) true xml

/-- The fallback regex of `getTagContent`: the dynamically built
single-line pattern `<tagName>(.*?)</tagName>`. -/
def plainMatch (xml tagName : List Char) : Option (List Char) :=
  matchBetween (("<").data ++ tagName ++ ((">").data))
    (("</").data ++ tagName ++ ((">").data)) false xml

/-- Model of `Provider.getTagContent`: extract the body of `<tagName>` from a
fragment, preferring a CDATA-wrapped body and falling back — when the CDATA
regex does not match, or when its capture is the empty string (an empty
capture is falsy in `if (match && match[1])`) — to the plain single-line
pattern, and to the empty string when neither matches. -/
def getTagContent (xml tagName : List Char) : List Char :=
  match cdataMatch xml tagName with
  | some cap => if cap.isEmpty then (plainMatch xml tagName).getD [] else cap
  | none => (plainMatch xml tagName).getD []

/-- The characters of `s` strictly before its first double-quote character;
`none` when `s` has none. -/
def takeToQuote : List Char → Option (List Char)
  | [] => none
  | c :: rest => if c = '"' then some [] else (takeToQuote rest).map (c :: ·)

/-- Leftmost match of `/<enclosure url="(magnet:[^"]+)"/` in the fragment:
after the literal `<enclosure url="magnet:`, the greedy `[^"]+` runs to the
next double quote and must be non-empty. -/
def findEnclosureMagnet : List Char → Option (List Char)
  | [] => none
  | c :: rest =>
    match (if (("<enclosure url=\"magnet:").data).isPrefixOf (c :: rest) then
            (takeToQuote ((c :: rest).drop 23)).bind fun r =>
              if r.isEmpty then none else some ((("magnet:").data) ++ r)
          else none) with
    | some m => some m
    | none => findEnclosureMagnet rest

/-- Model of `Provider.getHashFromMagnet`: leftmost match of
`/urn:btih:([a-fA-F0-9]{40})/`, i.e. the 40 hex characters following the
first occurrence of `urn:btih:` that is followed by at least 40 hex
characters. -/
def getHashFromMagnet : List Char → Option (List Char)
  | [] => none
  | c :: rest =>
    match (if (("urn:btih:").data).isPrefixOf (c :: rest) then
            let t := (c :: rest).drop 9
            let hx := t.take 40
            if hx.length == 40 && hx.all hexDigit then some hx else none
          else none) with
    | some hx => some hx
    | none => getHashFromMagnet rest

/-- The suffix of `s` strictly after its first closing angle bracket;
`none` when `s` has none.  This is what one global-replace step of the tag
regex consumes after an opening angle bracket. -/
def dropTag : List Char → Option (List Char)
  | [] => none
  | c :: rest => if c = '>' then some rest else dropTag rest

/-- One fuelled step list for `stripTags`: the fuel decreases by one per
recursive call while the remaining string shrinks by at least one character,
so fuel equal to the length of the string always suffices (structural recursion
on the fuel keeps the function kernel-reducible). -/
def stripTagsF : Nat → List Char → List Char
  | 0, _ => []
  | _ + 1, [] => []
  | n + 1, c :: rest =>
    if c = '<' then
      match dropTag rest with
      | some rest' => stripTagsF n rest'
      | none => c :: stripTagsF n rest
    else c :: stripTagsF n rest

/-- Model of the global replace of the tag regex by the empty string:
delete every run consisting of an opening angle bracket, characters other
than a closing angle bracket, and a closing angle bracket; an opening angle
bracket with no later closing one is kept, as the regex cannot match there. -/
def stripTags (s : List Char) : List Char :=
  stripTagsF s.length s

/-- Model of `String.prototype.split` at the pipe character. -/
def splitOnPipe : List Char → List (List Char)
  | [] => [[]]
  | c :: rest =>
    if c = '|' then [] :: splitOnPipe rest
    else
      match splitOnPipe rest with
      | [] => [[c]]
      | h :: t => (c :: h) :: t

/-- The entry-opening marker the feed body is split on. -/
def itemMarker : List Char := ("<item>").data

/-- Fuelled worker for `splitOnItems`; fuel equal to the length of the string
suffices, as each recursive call consumes at least one character. -/
def splitOnItemsF : Nat → List Char → List (List Char)
  | 0, _ => [[]]
  | _ + 1, [] => [[]]
  | n + 1, c :: rest =>
    if itemMarker.isPrefixOf (c :: rest) then
      [] :: splitOnItemsF n ((c :: rest).drop 6)
    else
      match splitOnItemsF n rest with
      | [] => [[c]]
      | h :: t => (c :: h) :: t

/-- Model of the split of the feed body on the entry marker. -/
def splitOnItems (s : List Char) : List (List Char) :=
  splitOnItemsF s.length s

/-- The per-entry fragments: split on the marker and discard the feed
header (`items.shift()`). -/
def entryFragments (xml : List Char) : List (List Char) :=
  (splitOnItems xml).tail

/-! ## Field normalization and record assembly -/

/-- One anchored attempt of `/\d+(\.\d+)?\s*(KB|MB|GB|TB)/i` at the head of
`s`: one or more digits, an optional dot-and-digits group, optional
whitespace, then a two-letter unit.  (Greedy and backtracking semantics
coincide here: after a digit run, neither the optional group nor the unit
can start with a digit.) -/
def sizeMatchAt (s : List Char) : Bool :=
  let ds := s.takeWhile isDigitC
  if ds.isEmpty then false
  else
    let r1 := s.drop ds.length
    let r2 :=
      match r1 with
      | '.' :: t =>
        let fs := t.takeWhile isDigitC
        if fs.isEmpty then r1 else t.drop fs.length
      | _ => r1
    match r2.dropWhile isJsWhitespace with
    | a :: b :: _ =>
      decide (a = 'k' ∨ a = 'K' ∨ a = 'm' ∨ a = 'M' ∨ a = 'g' ∨ a = 'G' ∨
        a = 't' ∨ a = 'T') && decide (b = 'b' ∨ b = 'B')
    | _ => false

/-- Test of `/\d+(\.\d+)?\s*(KB|MB|GB|TB)/i` on `s`: the pattern matches somewhere
in `s`. -/
def sizeTest : List Char → Bool
  | [] => false
  | c :: rest => sizeMatchAt (c :: rest) || sizeTest rest

/-- The size-scanning loop of `parseTorrentsFromXml`: the first pipe-split
part whose trimmed form matches the size pattern, trimmed; the placeholder
`"0 MB"` when no part matches. -/
def formattedSizeOfParts (parts : List (List Char)) : List Char :=
  match parts.find? (fun p => sizeTest (jsTrim p)) with
  | some p => jsTrim p
  | none => ("0 MB").data

/-- The info-hash description scan of `parseTorrentsFromXml`: the first
trimmed part that has exactly 40 characters, all hexadecimal
(`/^[a-f0-9]+$/i`). -/
def findHashInParts (parts : List (List Char)) : Option (List Char) :=
  (parts.map jsTrim).find? (fun p => p.length == 40 && p.all hexDigit)

/-- JavaScript `parseInt` (radix 10) as used on a habari episode-number
string: optional sign after trimming, then leading digits; `none` for
`NaN`. -/
def jsParseInt (s : List Char) : Option ℤ :=
  let t := jsTrim s
  let core : List Char × Bool :=
    match t with
    | '-' :: r => (r, true)
    | '+' :: r => (r, false)
    | _ => (t, false)
  let ds := core.1.takeWhile isDigitC
  if ds.isEmpty then none
  else some (if core.2 then -(digitsToNat ds : ℤ) else (digitsToNat ds : ℤ))

/-- The output of the external `$habari.parse` title parser. -/
structure HabariMetadata where
  episode_number : List (List Char)
  video_resolution : List Char
  release_group : List Char

/-- The external capabilities the pipeline depends on:
`new Date(pubDate).toISOString()` (`none` models the `RangeError` thrown on
an invalid date, the one throwing step inside the per-fragment `try`) and
`$habari.parse`. -/
structure Env where
  dateToISO : List Char → Option (List Char)
  habari : List Char → HabariMetadata

/-- The normalized output record (`AnimeTorrent`). -/
structure AnimeTorrent where
  name : List Char
  date : List Char
  size : ℤ
  formattedSize : List Char
  seeders : ℤ
  leechers : ℤ
  downloadCount : ℤ
  link : List Char
  downloadUrl : List Char
  magnetLink : List Char
  infoHash : List Char
  resolution : List Char
  isBatch : Bool
  episodeNumber : ℤ
  releaseGroup : List Char
  isBestRelease : Bool
  confirmed : Bool
deriving DecidableEq

/-- The cleaned title of a fragment: `title` tag body, markup-stripped and
trimmed. -/
def titleOf (itemXml : List Char) : List Char :=
  jsTrim (stripTags (getTagContent itemXml (("title").data)))

/-- The magnet link of a fragment: enclosure-URL match, empty when absent. -/
def magnetOf (itemXml : List Char) : List Char :=
  (findEnclosureMagnet itemXml).getD []

/-- The pipe-split parts of the cleaned description of a fragment. -/
def descPartsOf (itemXml : List Char) : List (List Char) :=
  splitOnPipe (jsTrim (stripTags (getTagContent itemXml (("description").data))))

/-- The info hash of a fragment before lower-casing: magnet-URI extraction
first, then the description scan, then the empty string. -/
def infoHashOf (itemXml : List Char) : List Char :=
  match getHashFromMagnet (magnetOf itemXml) with
  | some hx => hx
  | none =>
    match findHashInParts (descPartsOf itemXml) with
    | some p => p
    | none => []

/-- The per-fragment body of the `items.map` call in `parseTorrentsFromXml`:
`none` models the `catch` branch (the fragment whose processing threw is
dropped); the only modelled throwing step is the date conversion. -/
def parseItem (env : Env) (itemXml : List Char) : Option AnimeTorrent :=
  let title := titleOf itemXml
  let link := getTagContent itemXml (("link").data)
  let pubDate := getTagContent itemXml (("pubDate").data)
  let magnetLink := magnetOf itemXml
  let parts := descPartsOf itemXml
  let formattedSize := formattedSizeOfParts parts
  let infoHash := infoHashOf itemXml
  let metadata := env.habari title
  let episodeNumber : ℤ :=
    match metadata.episode_number with
    | [] => -1
    | e :: _ => (jsParseInt e).getD (-1)
  match env.dateToISO pubDate with
  | none => none
  | some iso =>
    some
      { name := title
        date := iso
        size := parseSizeToBytes formattedSize
        formattedSize := formattedSize
        seeders := -1
        leechers := -1
        downloadCount := 0
        link := link
        downloadUrl := []
        magnetLink := magnetLink
        infoHash := infoHash.map jsToLower
        resolution := metadata.video_resolution
        isBatch := decide (1 < metadata.episode_number.length)
        episodeNumber := episodeNumber
        releaseGroup := metadata.release_group
        isBestRelease := false
        confirmed := false }

/-- Mapping fragments to records, dropping the `null`s of failed fragments
(`.map(...).filter((t) => t !== null)`). -/
def parseItems (env : Env) (frags : List (List Char)) : List AnimeTorrent :=
  frags.filterMap (parseItem env)

/-- Model of `Provider.parseTorrentsFromXml`. -/
def parseTorrentsFromXml (env : Env) (xml : List Char) : List AnimeTorrent :=
  parseItems env (entryFragments xml)

/-- An HTTP response as seen by `fetchAndParseRss`. -/
structure HttpResponse where
  ok : Bool
  status : ℤ
  text : List Char

/-- Model of `Provider.fetchAndParseRss`: `none` models a transport failure (the
`fetch` call threw); a non-`ok` response throws inside the `try`; both are
caught and yield `[]`. -/
def fetchAndParseRss (env : Env) (resp : Option HttpResponse) : List AnimeTorrent :=
  match resp with
  | none => []
  | some r => if r.ok then parseTorrentsFromXml env r.text else []

/-! ## Concrete test data -/

/-- An environment with a constant date conversion and a habari parser that
finds nothing; used to evaluate the pipeline on concrete feeds. -/
def envDemo : Env where
  dateToISO := fun _ => some (("1970-01-01T00:00:00.000Z").data)
  habari := fun _ => ⟨[], [], []⟩

/-- An environment whose date conversion always throws. -/
def envThrowingDate : Env where
  dateToISO := fun _ => none
  habari := fun _ => ⟨[], [], []⟩

/-- A well-formed fragment: CDATA title, plain link and pubDate, CDATA
description in the `<blurb> | <size> | <misc> | <hash>` convention, and a
magnet enclosure. -/
def demoFrag : List Char :=
  ("<title><![CDATA[Demo Show - 01]]></title><link>https://example.com/t/1</link><pubDate>Mon, 01 Jan 2024 00:00:00 +0000</pubDate><description><![CDATA[<a href=\"x\">Demo</a> | 1.5GB | misc | ABCDEF0123456789ABCDEF0123456789ABCDEF01]]></description><enclosure url=\"magnet:?xt=urn:btih:ABCDEF0123456789ABCDEF0123456789ABCDEF01&dn=x\" />").data

/-- The record extracted from `demoFrag` under `envDemo`. -/
def demoRecord : AnimeTorrent where
  name := ("Demo Show - 01").data
  date := ("1970-01-01T00:00:00.000Z").data
  size := 1610612736
  formattedSize := ("1.5GB").data
  seeders := -1
  leechers := -1
  downloadCount := 0
  link := ("https://example.com/t/1").data
  downloadUrl := []
  magnetLink := ("magnet:?xt=urn:btih:ABCDEF0123456789ABCDEF0123456789ABCDEF01&dn=x").data
  infoHash := ("abcdef0123456789abcdef0123456789abcdef01").data
  resolution := []
  isBatch := false
  episodeNumber := -1
  releaseGroup := []
  isBestRelease := false
  confirmed := false

/-- A feed body containing a channel header and the one `demoFrag` entry. -/
def demoXml : List Char :=
  ("<channel><description>feed</description><item>").data ++ demoFrag

/-- A fragment with no magnet enclosure whose description carries the info
hash as its fourth pipe-separated part. -/
def demoFragNoMagnet : List Char :=
  ("<title>T2</title><pubDate>w</pubDate><description>blurb | 12MB | misc | 0123456789abcdef0123456789ABCDEF01234567</description>").data

/-- The record extracted from `demoFragNoMagnet` under `envDemo`. -/
def demoRecordNoMagnet : AnimeTorrent where
  name := ("T2").data
  date := ("1970-01-01T00:00:00.000Z").data
  size := 12582912
  formattedSize := ("12MB").data
  seeders := -1
  leechers := -1
  downloadCount := 0
  link := []
  downloadUrl := []
  magnetLink := []
  infoHash := ("0123456789abcdef0123456789abcdef01234567").data
  resolution := []
  isBatch := false
  episodeNumber := -1
  releaseGroup := []
  isBestRelease := false
  confirmed := false

/-- A fragment whose description has no size-pattern part and no hash
part. -/
def demoFragNoSize : List Char :=
  ("<title>T3</title><pubDate>w</pubDate><description>alpha | beta</description>").data

/-- The record extracted from `demoFragNoSize` under `envDemo`. -/
def demoRecordNoSize : AnimeTorrent where
  name := ("T3").data
  date := ("1970-01-01T00:00:00.000Z").data
  size := 0
  formattedSize := ("0 MB").data
  seeders := -1
  leechers := -1
  downloadCount := 0
  link := []
  downloadUrl := []
  magnetLink := []
  infoHash := []
  resolution := []
  isBatch := false
  episodeNumber := -1
  releaseGroup := []
  isBestRelease := false
  confirmed := false

/-! ## Helper lemmas -/

theorem toNat_ofNat_small (n : Nat) (h : n < 55296) : (Char.ofNat n).toNat = n := by
  have hv : n.isValidChar := Or.inl h
  rw [Char.ofNat, dif_pos hv]
  simp [Char.ofNatAux, Char.toNat, UInt32.toNat]

theorem lowerHex_jsToLower (c : Char) (h : hexDigit c = true) :
    lowerHexDigit (jsToLower c) = true := by
  rw [hexDigit, decide_eq_true_iff] at h
  rw [jsToLower, lowerHexDigit]
  rcases h with h | h | h
  · rw [if_neg (by omega), decide_eq_true_iff]
    exact Or.inl h
  · rw [if_neg (by omega), decide_eq_true_iff]
    exact Or.inr h
  · rw [if_pos (by omega), decide_eq_true_iff]
    have hv := toNat_ofNat_small (c.toNat + 32) (by omega)
    omega

theorem all_lowerHex_map_jsToLower (l : List Char) (h : l.all hexDigit = true) :
    (l.map jsToLower).all lowerHexDigit = true := by
  rw [List.all_map]
  rw [List.all_eq_true] at h ⊢
  intro x hx
  exact lowerHex_jsToLower x (h x hx)

theorem getHashFromMagnet_shape :
    ∀ s hx, getHashFromMagnet s = some hx → hx.length = 40 ∧ hx.all hexDigit = true := by
  intro s
  induction s with
  | nil => intro hx h; simp [getHashFromMagnet] at h
  | cons c rest ih =>
    intro hx h
    rw [getHashFromMagnet] at h
    by_cases hp : (("urn:btih:").data).isPrefixOf (c :: rest)
    · simp only [if_pos hp] at h
      by_cases hg : ((((c :: rest).drop 9).take 40).length == 40 &&
          (((c :: rest).drop 9).take 40).all hexDigit) = true
      · simp only [hg, if_pos] at h
        simp only [Option.some.injEq] at h
        subst h
        simp only [Bool.and_eq_true, beq_iff_eq] at hg
        exact hg
      · simp only [Bool.not_eq_true] at hg
        simp only [hg, Bool.false_eq_true, if_false] at h
        exact ih hx h
    · simp only [if_neg hp] at h
      exact ih hx h

theorem splitOnItemsF_no_marker :
    ∀ n s, s.length ≤ n → containsSub itemMarker s = false → splitOnItemsF n s = [s] := by
  intro n
  induction n with
  | zero =>
    intro s hlen _
    have : s = [] := List.eq_nil_of_length_eq_zero (Nat.le_zero.mp hlen)
    subst this
    rfl
  | succ n ih =>
    intro s hlen hno
    cases s with
    | nil => rfl
    | cons c rest =>
      rw [containsSub, Bool.or_eq_false_iff] at hno
      rw [splitOnItemsF, if_neg (by simp [hno.1]),
        ih rest (by simpa using Nat.le_of_succ_le_succ hlen) hno.2]

theorem splitOnItems_no_marker (s : List Char) (h : containsSub itemMarker s = false) :
    splitOnItems s = [s] :=
  splitOnItemsF_no_marker s.length s le_rfl h

theorem roundedDiv_eq_jsRound (n d : Nat) (hd : 0 < d) :
    (roundedDiv n d : ℤ) = jsRound ((n : ℚ) / d) := by
  rw [roundedDiv, jsRound]
  have hq : (n : ℚ) / d + 1 / 2 = ((2 * n + d : ℕ) : ℚ) / ((2 * d : ℕ) : ℚ) := by
    have hd0 : ((d : ℚ)) ≠ 0 := by positivity
    push_cast
    field_simp
    ring
  rw [hq, ← Nat.floor_div_eq_div (α := ℚ) (2 * n + d) (2 * d),
    Int.natCast_floor_eq_floor (by positivity)]

theorem parseItem_some_fields (env : Env) (itemXml : List Char) (r : AnimeTorrent)
    (h : parseItem env itemXml = some r) :
    r.name = titleOf itemXml ∧ r.magnetLink = magnetOf itemXml ∧
      r.infoHash = (infoHashOf itemXml).map jsToLower ∧
      r.formattedSize = formattedSizeOfParts (descPartsOf itemXml) ∧
      r.size = parseSizeToBytes (formattedSizeOfParts (descPartsOf itemXml)) := by
  cases hiso : env.dateToISO (getTagContent itemXml (("pubDate").data)) with
  | none => rw [parseItem] at h; rw [hiso] at h; exact absurd h (by simp)
  | some iso =>
    rw [parseItem] at h
    rw [hiso, Option.some.injEq] at h
    subst h
    exact ⟨rfl, rfl, rfl, rfl, rfl⟩

/-! ## The claims -/

/-- C1 (corrected).  The spec's first round-trip example holds:
`parseSizeToBytes "1.5GB" = 1610612736 = round(1.5 * 1024 ^ 3)`.  The
second figure in the spec is arithmetically wrong: `467.5 * 1024 ^ 3`
rounds to `501974302720`, not `502078838374`. -/
theorem sizeRoundTripExamples :
    parseSizeToBytes (("1.5GB").data) = 1610612736 ∧
    parseSizeToBytes (("467.5GB").data) = 501974302720 := by
  constructor
  · decide
  · decide

/-- C1 counterexample: on `"467.5GB"` the conversion yields
`501974302720`, which is not the `502078838374` the claim states. -/
theorem sizeRoundTrip_spec_figure_wrong :
    parseSizeToBytes (("467.5GB").data) = 501974302720 ∧
    (501974302720 : ℤ) ≠ 502078838374 := by
  constructor
  · decide
  · decide

/-- C2 (corrected).  For every formatted-size string, the conversion
parses the leading numeric portion of the stripped string (zero when
unparseable), multiplies by the binary multiplier selected by the `gb`,
`mb`, `kb` substring tests, and rounds half-up to an integer.  There is no
`TB` multiplier: a string whose lower-cased form contains none of `gb`,
`mb`, `kb` — `"1TB"` included — passes through unscaled. -/
theorem jsRound_zero : jsRound 0 = 0 := by
  rw [jsRound, zero_add, Int.floor_eq_zero_iff]
  norm_num [Set.mem_Ico]

theorem parseSizeToBytes_eq_spec (s : List Char) :
    parseSizeToBytes s = jsRound (numericValueQ s * unitMultiplierQ s) := by
  rw [parseSizeToBytes, numericValueQ, unitMultiplierQ]
  by_cases hs : s.isEmpty = true
  · have hnil : s = [] := List.isEmpty_iff.mp hs
    subst hnil
    have h0 : parseDecimal ([] : List Char) = none := rfl
    simp [h0, jsRound_zero]
  · rw [if_neg hs]
    cases hpd : parseDecimal (s.filter sizeCharKeep) with
    | none => simp [hpd, jsRound_zero]
    | some v =>
      have key : ∀ (m : ℕ) (q : ℚ), (m : ℚ) = q → 0 < m →
          (roundedDiv (v.mant * m) (10 ^ v.scale) : ℤ) = jsRound (v.toQ * q) := by
        intro m q hq hm
        rw [← hq, roundedDiv_eq_jsRound (v.mant * m) (10 ^ v.scale) (by positivity)]
        congr 1
        rw [DecValue.toQ]
        push_cast
        field_simp
      simp only []
      split_ifs with hg hm hk
      · exact key (1024 * 1024 * 1024) (1024 * 1024 * 1024) (by push_cast; ring) (by norm_num)
      · exact key (1024 * 1024) (1024 * 1024) (by push_cast; ring) (by norm_num)
      · exact key 1024 1024 (by push_cast; ring) (by norm_num)
      · simpa using key 1 1 (by norm_num) (by norm_num)

/-- C2 counterexample: the claimed `TB × 1024 ^ 4` multiplier does not
exist in the code; `"1TB"` converts to `1`, not `1099511627776`. -/
theorem parseSizeToBytes_TB_unscaled :
    parseSizeToBytes (("1TB").data) = 1 ∧ (1 : ℤ) ≠ 1099511627776 := by
  constructor
  · decide
  · decide

/-- C3 (confirmed).  For every fragment (in any environment), the
emitted info hash of the record is the lower-casing of: the 40-hex `urn:btih:`
capture of the magnet URI when it exists, else the first trimmed pipe-split
description part of exactly 40 hexadecimal characters, else the empty
string. -/
theorem infoHash_derivation (env : Env) (itemXml : List Char) (r : AnimeTorrent)
    (h : parseItem env itemXml = some r) :
    r.infoHash =
      (match getHashFromMagnet (magnetOf itemXml) with
        | some hx => hx
        | none =>
          match findHashInParts (descPartsOf itemXml) with
          | some p => p
          | none => []).map jsToLower := by
  obtain ⟨-, -, hih, -, -⟩ := parseItem_some_fields env itemXml r h
  rw [hih, infoHashOf]

/-- C3 witness: a fragment with no magnet enclosure and the hash in the
description yields that hash (here also lower-cased from its mixed-case
form). -/
theorem infoHash_derivation_witness :
    parseItem envDemo demoFragNoMagnet = some demoRecordNoMagnet ∧
    demoRecordNoMagnet.infoHash = ("0123456789abcdef0123456789abcdef01234567").data := by
  constructor
  · decide
  · exact (infoHash_derivation envDemo demoFragNoMagnet demoRecordNoMagnet
      (by decide)).trans (by decide)

/-- C4 (confirmed).  Whenever the magnet URI yields a 40-hex
`urn:btih:` capture, the emitted `infoHash` field of the record is exactly that
capture lower-cased. -/
theorem magnet_infoHash_lowercased (env : Env) (itemXml : List Char) (r : AnimeTorrent)
    (hx : List Char) (hr : parseItem env itemXml = some r)
    (hm : getHashFromMagnet (magnetOf itemXml) = some hx) :
    r.infoHash = hx.map jsToLower := by
  obtain ⟨-, -, hih, -, -⟩ := parseItem_some_fields env itemXml r hr
  rw [hih, infoHashOf, hm]

/-- C4 witness: the example hash of the spec
`urn:btih:ABCDEF0123456789ABCDEF0123456789ABCDEF01` comes out lower-cased. -/
theorem magnet_infoHash_lowercased_witness :
    parseItem envDemo demoFrag = some demoRecord ∧
    demoRecord.infoHash = ("abcdef0123456789abcdef0123456789abcdef01").data := by
  constructor
  · decide
  · exact (magnet_infoHash_lowercased envDemo demoFrag demoRecord
      (("ABCDEF0123456789ABCDEF0123456789ABCDEF01").data) (by decide) (by decide)).trans
      (by decide)

/-- C5 (confirmed).  A feed body with no entry-opening marker parses to
the empty sequence, and a body with `N` entry fragments parses to at most
`N` records. -/
theorem parse_stage_count_bounds (env : Env) (xml : List Char) :
    (containsSub itemMarker xml = false → parseTorrentsFromXml env xml = []) ∧
    (parseTorrentsFromXml env xml).length ≤ (entryFragments xml).length := by
  constructor
  · intro h
    rw [parseTorrentsFromXml, entryFragments, splitOnItems_no_marker xml h]
    rfl
  · exact List.length_filterMap_le _ _

/-- C5 witness: a body with no `<item>` marker parses to `[]`. -/
theorem parse_stage_count_bounds_witness :
    parseTorrentsFromXml envDemo (("just a header, no entries").data) = [] :=
  (parse_stage_count_bounds envDemo (("just a header, no entries").data)).1 (by decide)

/-- C6 (confirmed).  The fetch-and-parse operation never surfaces an
error: a transport failure or a non-success status yields `[]`, a fragment
whose processing throws contributes nothing while all other fragments are
processed normally, and the parse stage is exactly the per-fragment map
over the split fragments. -/
theorem fetch_never_surfaces_errors :
    (∀ env, fetchAndParseRss env none = []) ∧
    (∀ env r, r.ok = false → fetchAndParseRss env (some r) = []) ∧
    (∀ env pre frag post, parseItem env frag = none →
      parseItems env (pre ++ frag :: post) = parseItems env pre ++ parseItems env post) ∧
    (∀ env xml, parseTorrentsFromXml env xml = parseItems env (entryFragments xml)) := by
  refine ⟨fun env => rfl, fun env r h => ?_, fun env pre frag post h => ?_,
    fun env xml => rfl⟩
  · simp [fetchAndParseRss, h]
  · simp [parseItems, List.filterMap_append, List.filterMap_cons, h]

/-- C6 witness: a `404` response parses to `[]`, and a fragment whose
date conversion throws is dropped without affecting its neighbours. -/
theorem fetch_never_surfaces_errors_witness :
    fetchAndParseRss envDemo (some (HttpResponse.mk false 404 demoXml)) = [] ∧
    parseItems envThrowingDate ([] ++ demoFrag :: []) =
      parseItems envThrowingDate [] ++ parseItems envThrowingDate [] :=
  ⟨fetch_never_surfaces_errors.2.1 envDemo (HttpResponse.mk false 404 demoXml) rfl,
   fetch_never_surfaces_errors.2.2.1 envThrowingDate [] demoFrag [] (by decide)⟩

/-- C7 counterexample: on `<t><![CDATA[]]></t>` the CDATA regex matches
(with an empty capture), yet the extractor does not return that capture: the
falsy empty string sends it to the plain fallback, which returns
`<![CDATA[]]>`. -/
theorem tag_extractor_empty_cdata_counterexample :
    cdataMatch (("<t><![CDATA[]]></t>").data) (("t").data) = some [] ∧
    getTagContent (("<t><![CDATA[]]></t>").data) (("t").data) = ("<![CDATA[]]>").data := by
  constructor
  · decide
  · decide

/-- C7 (corrected).  The tag extractor returns the CDATA capture when
the CDATA regex matches with a NON-EMPTY capture; when the CDATA regex does
not match — or matches with an empty capture — it falls back to the plain
non-greedy single-line match; and it returns the empty string when neither
regex matches. -/
theorem tag_extractor_amended (xml tagName : List Char) :
    (∀ cap, cdataMatch xml tagName = some cap → cap ≠ [] →
      getTagContent xml tagName = cap) ∧
    (cdataMatch xml tagName = none ∨ cdataMatch xml tagName = some [] →
      getTagContent xml tagName = (plainMatch xml tagName).getD []) ∧
    (cdataMatch xml tagName = none → plainMatch xml tagName = none →
      getTagContent xml tagName = []) := by
  refine ⟨?_, ?_, ?_⟩
  · intro cap hc hne
    rw [getTagContent, hc]
    simp [List.isEmpty_iff, hne]
  · rintro (h | h)
    · rw [getTagContent, h]
    · rw [getTagContent, h]
      simp
  · intro h1 h2
    rw [getTagContent, h1, h2]
    rfl

/-- C7 witness: all three behaviours at concrete inputs — a non-empty
CDATA body, a plain body, and a missing tag. -/
theorem tag_extractor_amended_witness :
    getTagContent (("<t><![CDATA[abc]]></t>").data) (("t").data) = ("abc").data ∧
    getTagContent (("<link>u</link>").data) (("link").data) = ("u").data ∧
    getTagContent (("nothing here").data) (("t").data) = [] := by
  refine ⟨?_, ?_, ?_⟩
  · exact (tag_extractor_amended (("<t><![CDATA[abc]]></t>").data) (("t").data)).1
      (("abc").data) (by decide) (by decide)
  · exact ((tag_extractor_amended (("<link>u</link>").data) (("link").data)).2.1
      (Or.inl (by decide))).trans (by decide)
  · exact (tag_extractor_amended (("nothing here").data) (("t").data)).2.2
      (by decide) (by decide)

/-- C8 (confirmed).  When no pipe-split description part matches the
size pattern, the emitted record has the placeholder `"0 MB"` and a zero
byte size. -/
theorem no_size_pattern_defaults (env : Env) (itemXml : List Char) (r : AnimeTorrent)
    (hr : parseItem env itemXml = some r)
    (hno : ∀ p ∈ descPartsOf itemXml, sizeTest (jsTrim p) = false) :
    r.formattedSize = ("0 MB").data ∧ r.size = 0 := by
  obtain ⟨-, -, -, hfs, hsz⟩ := parseItem_some_fields env itemXml r hr
  have hfind : (descPartsOf itemXml).find? (fun p => sizeTest (jsTrim p)) = none :=
    List.find?_eq_none.mpr (fun x hx => by simp [hno x hx])
  constructor
  · rw [hfs, formattedSizeOfParts, hfind]
  · rw [hsz, formattedSizeOfParts, hfind]
    decide

/-- C8 witness: a description with parts `alpha | beta` (no size
pattern) yields `"0 MB"` and size `0`. -/
theorem no_size_pattern_defaults_witness :
    demoRecordNoSize.formattedSize = ("0 MB").data ∧ demoRecordNoSize.size = 0 :=
  no_size_pattern_defaults envDemo demoFragNoSize demoRecordNoSize (by decide) (by decide)

/-- C9 (confirmed).  Every emitted record comes whole from a fragment
whose processing succeeded — its `name` and `magnetLink` are the (total,
possibly empty) extraction results for that fragment — and a fragment that
throws is dropped entirely, never emitted partially. -/
theorem records_from_successful_fragments (env : Env) (xml : List Char) (r : AnimeTorrent)
    (hr : r ∈ parseTorrentsFromXml env xml) :
    ∃ frag, frag ∈ entryFragments xml ∧ parseItem env frag = some r ∧
      r.name = titleOf frag ∧ r.magnetLink = magnetOf frag := by
  obtain ⟨frag, hmem, hsome⟩ := List.mem_filterMap.mp hr
  obtain ⟨hn, hm, -, -, -⟩ := parseItem_some_fields env frag r hsome
  exact ⟨frag, hmem, hsome, hn, hm⟩

/-- C9 witness: the record of the demo feed comes from its (only)
fragment. -/
theorem records_from_successful_fragments_witness :
    ∃ frag, frag ∈ entryFragments demoXml ∧ parseItem envDemo frag = some demoRecord ∧
      demoRecord.name = titleOf frag ∧ demoRecord.magnetLink = magnetOf frag :=
  records_from_successful_fragments envDemo demoXml demoRecord (by decide)

/-- C10 (confirmed).  Every emitted `infoHash` field of the record is either empty
or exactly 40 characters of the lower-case hexadecimal alphabet. -/
theorem infoHash_shape_invariant (env : Env) (xml : List Char) (r : AnimeTorrent)
    (hr : r ∈ parseTorrentsFromXml env xml) :
    r.infoHash = [] ∨ (r.infoHash.length = 40 ∧ r.infoHash.all lowerHexDigit = true) := by
  obtain ⟨frag, -, hsome⟩ := List.mem_filterMap.mp hr
  obtain ⟨-, -, hih, -, -⟩ := parseItem_some_fields env frag r hsome
  rw [hih, infoHashOf]
  cases hbt : getHashFromMagnet (magnetOf frag) with
  | some hx =>
    right
    obtain ⟨hlen, hall⟩ := getHashFromMagnet_shape (magnetOf frag) hx hbt
    exact ⟨by simp [hlen], all_lowerHex_map_jsToLower hx hall⟩
  | none =>
    cases hfp : findHashInParts (descPartsOf frag) with
    | none => exact Or.inl rfl
    | some p =>
      right
      have hp := List.find?_some hfp
      simp only [Bool.and_eq_true, beq_iff_eq] at hp
      exact ⟨by simp [hp.1], all_lowerHex_map_jsToLower p hp.2⟩

/-- C10 witness: the record of the demo feed has a 40-character lower-hex
info hash. -/
theorem infoHash_shape_invariant_witness :
    demoRecord.infoHash = [] ∨
      (demoRecord.infoHash.length = 40 ∧ demoRecord.infoHash.all lowerHexDigit = true) :=
  infoHash_shape_invariant envDemo demoXml demoRecord (by decide)

end Acgnx
